import Mathlib

/-!
Shallow embedding of the employee-management microservice core
(validation, persistence gateway, orchestration service, delete boundary),
translated from the Go sources of the repository:

* validator package (ValidateEmployee, IsValidEmail, ValidateID),
* internal/repository/employee_repository.go (Create, FindAll, Count, Delete),
* the EmployeeService orchestration (Create, FindAll),
* the DeleteEmployee HTTP handler.

Go slices are modelled as `Option (List _)` so that the nil slice (`none`)
is distinguishable from the empty non-nil slice (`some []`), matching Go,
where a `var xs []T` declaration yields nil and `append` yields non-nil.
Go `int`/`int64` values are modelled as `Int`, with 64-bit wrap-around made
explicit where an arithmetic operation can overflow.
-/

/-- Go slice: `none` is the nil slice, `some l` a non-nil slice holding `l`. -/
abbrev GoSlice (α : Type) : Type := Option (List α)

/-- The Go nil slice (`var xs []T`). -/
def goNil {α : Type} : GoSlice α := none

/-- Go `append`: appending to a slice (nil or not) always yields a non-nil slice. -/
def goAppend {α : Type} (s : GoSlice α) (a : α) : GoSlice α :=
  some (s.getD [] ++ [a])

/-- `api.ErrorDetail` from internal/api/response.go: one structured field error.
`RejectedValue` is `""` when omitted (the Go zero value). -/
structure ErrorDetail where
  Field : String
  Message : String
  RejectedValue : String
deriving DecidableEq, Repr

/-- Go `unicode.IsSpace` (the White_Space property, with the Latin-1 fast path). -/
def goIsSpace (c : Char) : Bool :=
  let n := c.toNat
  n = 0x9 || n = 0xA || n = 0xB || n = 0xC || n = 0xD || n = 0x20 ||
  n = 0x85 || n = 0xA0 || n = 0x1680 || (0x2000 ≤ n && n ≤ 0x200A) ||
  n = 0x2028 || n = 0x2029 || n = 0x202F || n = 0x205F || n = 0x3000

/-- Go `strings.TrimSpace`: drop leading and trailing white space. -/
def goTrimSpace (s : String) : String :=
  ⟨((s.toList.dropWhile goIsSpace).reverse.dropWhile goIsSpace).reverse⟩

/-- Character class `[a-zA-Z0-9._%+-]` of the local part of the email regex. -/
def isEmailLocalChar (c : Char) : Bool :=
  c.isAlphanum || c = '.' || c = '_' || c = '%' || c = '+' || c = '-'

/-- Character class `[a-zA-Z0-9.-]` of the domain part of the email regex. -/
def isEmailDomainChar (c : Char) : Bool :=
  c.isAlphanum || c = '.' || c = '-'

/-- Split a character list at the first occurrence of `sep`; `none` when absent. -/
def breakAtChar (sep : Char) : List Char → Option (List Char × List Char)
  | [] => none
  | c :: cs =>
    if c = sep then some ([], cs)
    else
      match breakAtChar sep cs with
      | none => none
      | some (l, r) => some (c :: l, r)

/-- Split a character list at the last occurrence of `sep`; `none` when absent. -/
def breakAtLastChar (sep : Char) (l : List Char) : Option (List Char × List Char) :=
  match breakAtChar sep l.reverse with
  | none => none
  | some (revSuffix, revPre) => some (revPre.reverse, revSuffix.reverse)

/-- Full-string match of the compiled pattern
`^[a-zA-Z0-9._%+-]+@[a-zA-Z0-9.-]+\.[a-zA-Z]\x7b2,\x7d$` from the validator
package.  Neither character class contains `@`, so a matching string has
exactly one `@`; the final `[a-zA-Z]\x7b2,\x7d` group contains no dot, so the
dot consumed by `\.` is necessarily the last dot of the domain part. -/
def emailRegexMatch (s : String) : Bool :=
  match breakAtChar '@' s.toList with
  | none => false
  | some (loc, dom) =>
    !loc.isEmpty && loc.all isEmailLocalChar &&
    (match breakAtLastChar '.' dom with
     | none => false
     | some (pre, tld) =>
       !pre.isEmpty && pre.all isEmailDomainChar &&
       decide (2 ≤ tld.length) && tld.all Char.isAlpha)

/-- `validator.IsValidEmail`: `mail.ParseAddress(email)` succeeds and the
package regex matches.  `parseAddressOk` abstracts the external standard
library parser `net/mail.ParseAddress`, which is not part of this repository;
every theorem below holds for an arbitrary behaviour of that parser. -/
def IsValidEmail (parseAddressOk : String → Bool) (email : String) : Bool :=
  parseAddressOk email && emailRegexMatch email

/-- `validator.ValidationResult`: validity flag plus the error slice. -/
structure ValidationResult where
  IsValid : Bool
  Errors : GoSlice ErrorDetail
deriving DecidableEq, Repr

/-- `validator.ValidateEmployee` translated statement by statement: the result
starts valid with an empty non-nil error slice, and each failing check appends
its error and clears the flag. -/
def ValidateEmployee (parseAddressOk : String → Bool)
    (email employeeNumber firstName lastName : String) : ValidationResult :=
  let result : ValidationResult := { IsValid := true, Errors := some [] }
  let result :=
    if email = "" then
      { IsValid := false,
        Errors := goAppend result.Errors ⟨"email", "Email is required", ""⟩ }
    else if !IsValidEmail parseAddressOk email then
      { IsValid := false,
        Errors := goAppend result.Errors ⟨"email", "Email format is invalid", email⟩ }
    else result
  let result :=
    if employeeNumber = "" then
      { IsValid := false,
        Errors := goAppend result.Errors ⟨"employeeNumber", "Employee number is required", ""⟩ }
    else result
  let result :=
    if goTrimSpace firstName = "" then
      { IsValid := false,
        Errors := goAppend result.Errors ⟨"firstName", "First name is required", ""⟩ }
    else result
  let result :=
    if goTrimSpace lastName = "" then
      { IsValid := false,
        Errors := goAppend result.Errors ⟨"lastName", "Last name is required", ""⟩ }
    else result
  result

/-- Accumulate a decimal digit string left to right; `none` on a non-digit. -/
def parseDecDigits : List Char → Nat → Option Nat
  | [], acc => some acc
  | c :: cs, acc =>
    if c.isDigit then parseDecDigits cs (acc * 10 + (c.toNat - 48)) else none

/-- Go `strconv.ParseInt(s, 10, 64)`: optional `+`/`-` sign, then at least one
ASCII digit; out-of-range values yield an error (`none`), as Go returns a
non-nil `ErrRange` error which the caller treats like any parse failure. -/
def goParseInt64 (s : String) : Option Int :=
  match s.toList with
  | [] => none
  | c :: cs =>
    let signAndDigits : Bool × List Char :=
      if c = '-' then (true, cs) else if c = '+' then (false, cs) else (false, c :: cs)
    match signAndDigits.2 with
    | [] => none
    | ds =>
      match parseDecDigits ds 0 with
      | none => none
      | some n =>
        if signAndDigits.1 then
          if n ≤ 2 ^ 63 then some (-(n : Int)) else none
        else
          if n ≤ 2 ^ 63 - 1 then some (n : Int) else none

/-- `validator.ValidateID`: parse as base-10 int64, reject unparsable input and
non-positive values.  The error slice is nil (`none`) exactly on success. -/
def ValidateID (idStr : String) : Int × GoSlice ErrorDetail :=
  match goParseInt64 idStr with
  | none => (0, some [⟨"id", "ID must be a valid integer", idStr⟩])
  | some id =>
    if id ≤ 0 then (0, some [⟨"id", "ID must be a positive number", ""⟩])
    else (id, none)

/-- `models.EmployeeStatus` is a string type in the Go models package. -/
abbrev EmployeeStatus : Type := String

/-- `models.StatusActive`. -/
def StatusActive : EmployeeStatus := "ACTIVE"

/-- `models.StatusOnVacation`. -/
def StatusOnVacation : EmployeeStatus := "ON_VACATION"

/-- `models.StatusRetired`. -/
def StatusRetired : EmployeeStatus := "RETIRED"

/-- `models.Employee`.  Timestamps (`time.Time`) are modelled as opaque `Int`
values; nothing in the verified core computes with their contents. -/
structure Employee where
  ID : String
  FirstName : String
  LastName : String
  Email : String
  EmployeeNumber : String
  Position : String
  Department : String
  Status : EmployeeStatus
  HireDate : Int
  CreatedAt : Int
  UpdatedAt : Int
deriving DecidableEq, Repr

/-- The `filters map[string]interface` argument, modelled as a string-valued
lookup: the only writer (the GetAllEmployees handler) stores only string
values, and the repository consults only the keys department/status/position. -/
abbrev Filters : Type := String → Option String

/-- A query argument as appended to the `args []interface` slice: either a
filter value (string) or a pagination bound (int). -/
inductive GoVal : Type
  | str (s : String)
  | int (i : Int)
deriving DecidableEq, Repr

/-- `strings.Join(conditions, " AND ")`. -/
def joinAnd : List String → String
  | [] => ""
  | [c] => c
  | c :: cs => c ++ " AND " ++ joinAnd cs

/-- The incremental filter-clause construction of `employeeRepository.FindAll`
(employee_repository.go:120-138): three `if` blocks, in source order
department, status, position, each appending one parameterized condition, its
argument, and advancing `argPos` (which starts at 1). -/
def findAllFilterBuild (filters : Filters) : List String × List GoVal × Nat :=
  let conditions : List String := []
  let args : List GoVal := []
  let argPos : Nat := 1
  let (conditions, args, argPos) :=
    match filters "department" with
    | some dept =>
      if dept ≠ "" then
        (conditions ++ ["department = $" ++ toString argPos], args ++ [GoVal.str dept], argPos + 1)
      else (conditions, args, argPos)
    | none => (conditions, args, argPos)
  let (conditions, args, argPos) :=
    match filters "status" with
    | some status =>
      if status ≠ "" then
        (conditions ++ ["status = $" ++ toString argPos], args ++ [GoVal.str status], argPos + 1)
      else (conditions, args, argPos)
    | none => (conditions, args, argPos)
  let (conditions, args, argPos) :=
    match filters "position" with
    | some pos =>
      if pos ≠ "" then
        (conditions ++ ["position = $" ++ toString argPos], args ++ [GoVal.str pos], argPos + 1)
      else (conditions, args, argPos)
    | none => (conditions, args, argPos)
  (conditions, args, argPos)

/-- The filter-clause construction duplicated inside `employeeRepository.Count`
(employee_repository.go:198-217) — the source repeats the same three `if`
blocks rather than sharing them with FindAll. -/
def countFilterBuild (filters : Filters) : List String × List GoVal × Nat :=
  let conditions : List String := []
  let args : List GoVal := []
  let argPos : Nat := 1
  let (conditions, args, argPos) :=
    match filters "department" with
    | some dept =>
      if dept ≠ "" then
        (conditions ++ ["department = $" ++ toString argPos], args ++ [GoVal.str dept], argPos + 1)
      else (conditions, args, argPos)
    | none => (conditions, args, argPos)
  let (conditions, args, argPos) :=
    match filters "status" with
    | some status =>
      if status ≠ "" then
        (conditions ++ ["status = $" ++ toString argPos], args ++ [GoVal.str status], argPos + 1)
      else (conditions, args, argPos)
    | none => (conditions, args, argPos)
  let (conditions, args, argPos) :=
    match filters "position" with
    | some pos =>
      if pos ≠ "" then
        (conditions ++ ["position = $" ++ toString argPos], args ++ [GoVal.str pos], argPos + 1)
      else (conditions, args, argPos)
    | none => (conditions, args, argPos)
  (conditions, args, argPos)

/-- The SELECT column list of FindAll with interior whitespace normalized to
single spaces (the Go raw string literal spreads it over two indented lines). -/
def findAllBaseQuery : String :=
  "SELECT id, first_name, last_name, email, employee_number, position, department, status, hire_date, created_at, updated_at FROM employee.employees"

/-- The query text and argument slice assembled by `employeeRepository.FindAll`
(employee_repository.go:117-146): base query, optional WHERE with the
AND-joined conditions, ORDER BY created_at DESC, then LIMIT/OFFSET bound to
the two parameter positions after the filters, with limit and offset appended
to the arguments last. -/
def findAllQuery (limit offset : Int) (filters : Filters) : String × List GoVal :=
  let (conditions, args, argPos) := findAllFilterBuild filters
  let baseQuery := findAllBaseQuery
  let baseQuery :=
    if conditions.length > 0 then baseQuery ++ " WHERE " ++ joinAnd conditions else baseQuery
  let baseQuery := baseQuery ++ " ORDER BY created_at DESC"
  let baseQuery :=
    baseQuery ++ " LIMIT $" ++ toString argPos ++ " OFFSET $" ++ toString (argPos + 1)
  (baseQuery, args ++ [GoVal.int limit, GoVal.int offset])

/-- The query text and argument slice assembled by `employeeRepository.Count`
(employee_repository.go:196-224): COUNT base plus the optional WHERE clause,
with no ordering and no pagination. -/
def countQuery (filters : Filters) : String × List GoVal :=
  let (conditions, args, _argPos) := countFilterBuild filters
  let baseQuery := "SELECT COUNT(*) FROM employee.employees"
  let baseQuery :=
    if conditions.length > 0 then baseQuery ++ " WHERE " ++ joinAnd conditions else baseQuery
  (baseQuery, args)

/-- A storage-layer error as seen through the pgx driver: either an error that
`errors.As` recognizes as a `*pgconn.PgError` (carrying its SQLSTATE code and
constraint name), or any other error (modelled by its message). -/
inductive DbError : Type
  | pg (code : String) (constraintName : String)
  | other (msg : String)
deriving DecidableEq, Repr

/-- An error returned by the repository layer: the four sentinel domain errors
declared at employee_repository.go:38-43, a storage error returned as-is
(`return err`), or a storage error wrapped with a context message via
`fmt.Errorf("...: %w", err)`. -/
inductive RepoError : Type
  | emailExists
  | employeeNumberExists
  | employeeExists
  | notFound
  | passthrough (e : DbError)
  | wrapped (msg : String) (e : DbError)
deriving DecidableEq, Repr

/-- `employeeRepository.Create` (employee_repository.go:46-80), parameterized
by the storage outcome of the INSERT..RETURNING row (`α` is the returned
payload written back into the record).  A uniqueness violation (SQLSTATE
23505) is translated by constraint name; any other error is returned as-is. -/
def repoCreate {α : Type} (db : Except DbError α) : Except RepoError α :=
  match db with
  | .ok a => .ok a
  | .error err =>
    .error
      (match err with
       | .pg code constraint =>
         if code = "23505" then
           if constraint = "employees_email_key" then .emailExists
           else if constraint = "employees_employee_number_key" then .employeeNumberExists
           else .employeeExists
         else .passthrough err
       | .other _ => .passthrough err)

/-- The query-error translation of `employeeRepository.FindAll`
(employee_repository.go:149-161). -/
def findAllQueryErrorMap (e : DbError) : RepoError :=
  match e with
  | .pg code _ =>
    if code = "42P01" then .wrapped "employees table does not exist" e
    else if code = "42501" then .wrapped "insufficient privileges to access employees" e
    else .wrapped "failed to query employees" e
  | .other _ => .wrapped "failed to query employees" e

/-- The row-scanning loop of `employeeRepository.FindAll`
(employee_repository.go:164-184): `var employees []models.Employee` starts as
the nil slice and each row is appended with Go `append`. -/
def findAllScan (rows : List Employee) : GoSlice Employee :=
  rows.foldl goAppend goNil

/-- `employeeRepository.FindAll` (employee_repository.go:116-194) as a function
of the storage outcome: the list of successfully scanned rows the query
produced, or a storage error.  (The per-row scan-failure and `rows.Err()`
branches, which wrap and propagate an error, are not modelled: no claim
concerns them.) -/
def repoFindAll (db : Except DbError (List Employee)) : Except RepoError (GoSlice Employee) :=
  match db with
  | .error e => .error (findAllQueryErrorMap e)
  | .ok rows => .ok (findAllScan rows)

/-- `employeeRepository.Delete` (employee_repository.go:277-295), parameterized
by the storage outcome of the DELETE: an error, or the number of rows
affected.  SQLSTATE 23503 (foreign-key violation) and all other errors are
wrapped with their respective context messages; with no error, zero affected
rows yield the `ErrEmployeeNotFound` sentinel. -/
def repoDelete (db : Except DbError Nat) : Except RepoError Unit :=
  match db with
  | .error err =>
    .error
      (match err with
       | .pg code _ =>
         if code = "23503" then
           .wrapped "employee has related records and cannot be deleted" err
         else .wrapped "failed to delete employee" err
       | .other _ => .wrapped "failed to delete employee" err)
  | .ok rowsAffected =>
    if rowsAffected = 0 then .error .notFound else .ok ()

/-- Storage semantics of `DELETE FROM employee.employees WHERE id = $1` on a
table modelled by its list of primary keys: the remaining keys and the number
of rows affected. -/
def dbExecDelete (ids : List Int) (id : Int) : List Int × Nat :=
  (ids.filter (fun x => x ≠ id), (ids.filter (fun x => x = id)).length)

/-- `EmployeeService.Create` (employee_service.go): unconditionally overwrite
`Status` with `StatusActive` and `HireDate` with the current time, then
delegate to the repository.  The repository call and the clock are parameters
(`repoCreateFn`, `now`). -/
def serviceCreate (repoCreateFn : Employee → Except RepoError Employee)
    (now : Int) (e : Employee) : Except RepoError Employee :=
  repoCreateFn { e with Status := StatusActive, HireDate := now }

/-- Two's-complement wrap-around of Go 64-bit `int` arithmetic. -/
def wrap64 (x : Int) : Int :=
  (x + 2 ^ 63) % 2 ^ 64 - 2 ^ 63

/-- `EmployeeService.FindAll` (employee_service.go): clamp page and pageSize,
compute the offset (Go 64-bit multiplication), query the repository FindAll
with (pageSize, offset, filters), then Count with the same filters; the first
error aborts.  The repository calls are parameters. -/
def serviceFindAll
    (repoFindAllFn : Int → Int → Filters → Except RepoError (GoSlice Employee))
    (repoCountFn : Filters → Except RepoError Int)
    (page pageSize : Int) (filters : Filters) :
    Except RepoError (GoSlice Employee × Int) :=
  let page := if page < 1 then 1 else page
  let pageSize := if pageSize < 1 then 10 else pageSize
  let pageSize := if pageSize > 100 then 100 else pageSize
  let offset := wrap64 ((page - 1) * pageSize)
  match repoFindAllFn pageSize offset filters with
  | .error e => .error e
  | .ok employees =>
    match repoCountFn filters with
    | .error e => .error e
    | .ok total => .ok (employees, total)

/-- An HTTP-layer outcome as produced through the helpers of the api package:
a 204 status, a plain error response, or a validation error response. -/
inductive HttpResponse : Type
  | noContent
  | errorResp (status : Nat) (msg : String)
  | validationResp (status : Nat) (msg : String) (errs : List ErrorDetail)
deriving DecidableEq, Repr

/-- `EmployeeHandler.DeleteEmployee` (handlers, part_003:245-265) composed with
`EmployeeService.Delete` (pure delegation) and `employeeRepository.Delete`,
parameterized by the storage outcome of the DELETE for the parsed id: validate
the raw id, run the delete, then map `ErrEmployeeNotFound` to 404 and every
other error to the generic 500 response. -/
def deleteEmployeeHandler (idParam : String) (dbOutcome : Int → Except DbError Nat) :
    HttpResponse :=
  match ValidateID idParam with
  | (id, errs) =>
    match errs with
    | some l => .validationResp 400 "Invalid ID" l
    | none =>
      match repoDelete (dbOutcome id) with
      | .error RepoError.notFound => .errorResp 404 "Employee not found"
      | .error _ => .errorResp 500 "Failed to delete employee"
      | .ok _ => .noContent

/-- Spec-shaped view of the filters that are present and non-empty, as
(column, value) pairs in the fixed order department, status, position. -/
def presentFilters (filters : Filters) : List (String × String) :=
  (match filters "department" with
   | some v => if v = "" then [] else [("department", v)]
   | none => [])
  ++ (match filters "status" with
      | some v => if v = "" then [] else [("status", v)]
      | none => [])
  ++ (match filters "position" with
      | some v => if v = "" then [] else [("position", v)]
      | none => [])

/-- Spec-shaped parameterized equality conditions: one `col = $i` condition
per pair, parameter positions assigned consecutively from `n` in list order. -/
def condsFrom (n : Nat) : List (String × String) → List String
  | [] => []
  | cv :: rest => (cv.1 ++ " = $" ++ toString n) :: condsFrom (n + 1) rest

/-- C1: For every input quadruple, ValidateEmployee accumulates exactly one
error entry per failing field rule (empty email / email failing the format
check; empty employeeNumber; firstName or lastName empty after trimming),
in a single ordered list, and IsValid is false exactly when at least one rule
fails — in particular one entry per missing field, never fewer. -/
theorem validateEmployee_accumulates_all_errors (pa : String → Bool)
    (email num fn ln : String) :
    (ValidateEmployee pa email num fn ln).Errors =
      some ((if email = "" then [⟨"email", "Email is required", ""⟩]
             else if IsValidEmail pa email then ([] : List ErrorDetail)
             else [⟨"email", "Email format is invalid", email⟩])
        ++ (if num = "" then [⟨"employeeNumber", "Employee number is required", ""⟩] else [])
        ++ (if goTrimSpace fn = "" then [⟨"firstName", "First name is required", ""⟩] else [])
        ++ (if goTrimSpace ln = "" then [⟨"lastName", "Last name is required", ""⟩] else []))
    ∧ (ValidateEmployee pa email num fn ln).IsValid =
        ((!(email == "") && IsValidEmail pa email) && !(num == "") &&
         !(goTrimSpace fn == "") && !(goTrimSpace ln == "")) := by
  unfold ValidateEmployee goAppend
  by_cases h1 : email = "" <;> by_cases h2 : IsValidEmail pa email = true <;>
    by_cases h3 : num = "" <;> by_cases h4 : goTrimSpace fn = "" <;>
    by_cases h5 : goTrimSpace ln = "" <;>
    simp [h1, h2, h3, h4, h5]

/-- C10: the ValidationResult invariant — the error slice is never the nil
slice, IsValid holds iff the error list is empty, and the error entries always
appear in the fixed field order email, employeeNumber, firstName, lastName. -/
theorem validateEmployee_validity_invariant (pa : String → Bool)
    (email num fn ln : String) :
    (ValidateEmployee pa email num fn ln).Errors ≠ none
    ∧ ((ValidateEmployee pa email num fn ln).IsValid = true ↔
        (ValidateEmployee pa email num fn ln).Errors = some [])
    ∧ List.Sublist
        (((ValidateEmployee pa email num fn ln).Errors.getD []).map ErrorDetail.Field)
        ["email", "employeeNumber", "firstName", "lastName"] := by
  unfold ValidateEmployee goAppend
  by_cases h1 : email = "" <;> by_cases h2 : IsValidEmail pa email = true <;>
    by_cases h3 : num = "" <;> by_cases h4 : goTrimSpace fn = "" <;>
    by_cases h5 : goTrimSpace ln = "" <;>
    simp [h1, h2, h3, h4, h5]

/-- C8: ValidateID parses base-10, yields the "must be a valid integer" field
error exactly when parsing fails, the "must be a positive number" error
exactly when the parsed value is ≤ 0, and otherwise the parsed id with a nil
error slice; it always returns either a positive id with no errors or a
one-element error list (the concrete cases "abc", "-5", "42" included). -/
theorem validateID_spec :
    ValidateID "abc" = (0, some [⟨"id", "ID must be a valid integer", "abc"⟩])
    ∧ ValidateID "-5" = (0, some [⟨"id", "ID must be a positive number", ""⟩])
    ∧ ValidateID "42" = (42, none)
    ∧ (∀ s : String,
        (0 < (ValidateID s).1 ∧ (ValidateID s).2 = none)
        ∨ ((ValidateID s).1 = 0 ∧ ∃ d : ErrorDetail, (ValidateID s).2 = some [d]))
    ∧ (∀ s : String,
        ((ValidateID s).2 = some [⟨"id", "ID must be a valid integer", s⟩] ↔
          goParseInt64 s = none))
    ∧ (∀ s : String,
        ((ValidateID s).2 = some [⟨"id", "ID must be a positive number", ""⟩] ↔
          ∃ i : Int, goParseInt64 s = some i ∧ i ≤ 0)) := by
  refine ⟨by decide, by decide, by decide, ?_, ?_, ?_⟩
  · intro s
    cases h : goParseInt64 s with
    | none => simp [ValidateID, h]
    | some i =>
      by_cases hi : i ≤ 0 <;> simp [ValidateID, h, hi] <;> omega
  · intro s
    cases h : goParseInt64 s with
    | none => simp [ValidateID, h]
    | some i =>
      by_cases hi : i ≤ 0 <;> simp [ValidateID, h, hi]
  · intro s
    cases h : goParseInt64 s with
    | none => simp [ValidateID, h]
    | some i =>
      by_cases hi : i ≤ 0 <;> simp [ValidateID, h, hi]

/-- C2 (the code at the failing input): when the storage query returns zero
rows, the Persistence Gateway FindAll returns the Go *nil* slice with no
error — `var employees []models.Employee` is nil and the scan loop never
appends — contradicting the claim (and the comment in the source at
employee_repository.go:191-192) that the returned sequence is never
null/absent. -/
theorem repoFindAll_zero_rows_nil_slice :
    repoFindAll (Except.ok []) = Except.ok (none : GoSlice Employee)
    ∧ findAllScan [] = goNil :=
  ⟨rfl, rfl⟩

/-- C9: the orchestration Create passes the repository a record whose Status
is ACTIVE and whose HireDate is the current time, whatever the caller supplied
for those two fields (the result is insensitive to caller-supplied Status and
HireDate values). -/
theorem serviceCreate_overrides_status_and_hireDate
    (rc : Employee → Except RepoError Employee) (now : Int) (e : Employee)
    (s : EmployeeStatus) (d : Int) :
    serviceCreate rc now e = rc { e with Status := StatusActive, HireDate := now }
    ∧ serviceCreate rc now { e with Status := s, HireDate := d } = serviceCreate rc now e
    ∧ ({ e with Status := StatusActive, HireDate := now } : Employee).Status = StatusActive
    ∧ ({ e with Status := StatusActive, HireDate := now } : Employee).HireDate = now :=
  ⟨rfl, rfl, rfl, rfl⟩

/-- C3: the orchestration FindAll normalizes page to max 1 page, pageSize to
10 when ≤ 0 and clamps it to at most 100, leaves in-range values unchanged,
computes offset = (page-1)*pageSize (Go 64-bit multiplication), and calls the
gateway FindAll with the normalized pageSize as limit and that offset, and
Count with the identical filters map; the first error aborts. -/
theorem serviceFindAll_normalizes_and_delegates
    (rf : Int → Int → Filters → Except RepoError (GoSlice Employee))
    (rc : Filters → Except RepoError Int)
    (page pageSize : Int) (filters : Filters) :
    serviceFindAll rf rc page pageSize filters =
      match rf (min 100 (if pageSize ≤ 0 then 10 else pageSize))
               (wrap64 ((max 1 page - 1) * min 100 (if pageSize ≤ 0 then 10 else pageSize)))
               filters with
      | .error e => .error e
      | .ok employees =>
        match rc filters with
        | .error e => .error e
        | .ok total => .ok (employees, total) := by
  have hpage : (if page < 1 then (1 : Int) else page) = max 1 page := by omega
  have hps :
      (if (if pageSize < 1 then (10 : Int) else pageSize) > 100 then (100 : Int)
       else (if pageSize < 1 then (10 : Int) else pageSize))
        = min 100 (if pageSize ≤ 0 then 10 else pageSize) := by omega
  simp only [serviceFindAll]
  rw [hpage, hps]

/-- C4: the Persistence Gateway Create raises the email-exists conflict
exactly on a uniqueness violation (SQLSTATE 23505) of the email constraint,
the employee-number-exists conflict exactly on one of the employee-number
constraint, the generic already-exists signal exactly on any other uniqueness
violation, propagates every other storage error as-is, and raises no signal
on success. -/
theorem repoCreate_uniqueness_translation (emp : Employee) (e : DbError) :
    repoCreate (Except.ok emp) = Except.ok emp
    ∧ ((repoCreate (Except.error e : Except DbError Employee) =
          Except.error RepoError.emailExists)
        ↔ e = DbError.pg "23505" "employees_email_key")
    ∧ ((repoCreate (Except.error e : Except DbError Employee) =
          Except.error RepoError.employeeNumberExists)
        ↔ e = DbError.pg "23505" "employees_employee_number_key")
    ∧ ((repoCreate (Except.error e : Except DbError Employee) =
          Except.error RepoError.employeeExists)
        ↔ ∃ c : String, e = DbError.pg "23505" c ∧ c ≠ "employees_email_key" ∧
            c ≠ "employees_employee_number_key")
    ∧ ((repoCreate (Except.error e : Except DbError Employee) =
          Except.error (RepoError.passthrough e))
        ↔ ∀ c : String, e ≠ DbError.pg "23505" c) := by
  refine ⟨rfl, ?_, ?_, ?_, ?_⟩ <;>
  · cases e with
    | pg code constraint =>
      by_cases hc : code = "23505" <;>
        by_cases h1 : constraint = "employees_email_key" <;>
        by_cases h2 : constraint = "employees_employee_number_key" <;>
        simp [repoCreate, hc, h1, h2]
    | other m => simp [repoCreate]

/-- C5 counterexample: at the boundary, a foreign-key violation (SQLSTATE
23503) during Delete produces exactly the same generic 500 response as any
other storage error — there is no distinct "referenced, cannot delete"
response class, refuting the claim that the boundary maps the foreign-key
case to such a class rather than a generic error. -/
theorem deleteBoundary_fk_maps_to_generic :
    deleteEmployeeHandler "7"
        (fun _ => Except.error (DbError.pg "23503" "employees_some_fkey"))
      = HttpResponse.errorResp 500 "Failed to delete employee"
    ∧ deleteEmployeeHandler "7" (fun _ => Except.error (DbError.other "connection reset"))
      = HttpResponse.errorResp 500 "Failed to delete employee" := by
  constructor <;> rfl

/-- C5 amended: the gateway Delete returns the not-found sentinel exactly when
the delete affects zero rows (so a repeated Delete on the same identifier
returns NotFound), and on a foreign-key violation returns an error wrapped
with the distinct message "employee has related records and cannot be
deleted" (other errors get "failed to delete employee"); the boundary,
however, maps that foreign-key error to the generic 500 response, and only
NotFound to 404. -/
theorem repoDelete_notFound_and_fk_behavior (n : Nat) (ids : List Int) (id : Int)
    (cname m : String) :
    (repoDelete (Except.ok n) = Except.error RepoError.notFound ↔ n = 0)
    ∧ (repoDelete (Except.ok n) = Except.ok () ↔ n ≠ 0)
    ∧ repoDelete (Except.error (DbError.pg "23503" cname))
        = Except.error (RepoError.wrapped
            "employee has related records and cannot be deleted" (DbError.pg "23503" cname))
    ∧ repoDelete (Except.error (DbError.other m))
        = Except.error (RepoError.wrapped "failed to delete employee" (DbError.other m))
    ∧ repoDelete (Except.ok (dbExecDelete (dbExecDelete ids id).1 id).2)
        = Except.error RepoError.notFound
    ∧ deleteEmployeeHandler "7" (fun _ => Except.error (DbError.pg "23503" cname))
        = HttpResponse.errorResp 500 "Failed to delete employee"
    ∧ (deleteEmployeeHandler "7" (fun _ => Except.ok 0)
        = HttpResponse.errorResp 404 "Employee not found") := by
  refine ⟨?_, ?_, rfl, rfl, ?_, ?_, by rfl⟩
  · by_cases h : n = 0 <;> simp [repoDelete, h]
  · by_cases h : n = 0 <;> simp [repoDelete, h]
  · have hzero : (dbExecDelete (dbExecDelete ids id).1 id).2 = 0 := by
      simp [dbExecDelete, List.filter_filter]
    rw [hzero]
    rfl
  · rfl

/-- C6: FindAll appends at most one parameterized equality condition per
filter, in the fixed order department, status, position, each only when the
filter is present and non-empty; the conditions are AND-joined into the WHERE
clause, parameter positions are assigned in append order with limit and
offset bound to the last two positions and appended last to the argument
slice, and the query orders by creation time descending. -/
theorem findAllQuery_filter_construction (filters : Filters) (limit offset : Int) :
    (findAllFilterBuild filters).1 = condsFrom 1 (presentFilters filters)
    ∧ (findAllFilterBuild filters).2.1 =
        (presentFilters filters).map (fun cv => GoVal.str cv.2)
    ∧ (findAllFilterBuild filters).2.2 = (presentFilters filters).length + 1
    ∧ findAllQuery limit offset filters =
        ((findAllBaseQuery
          ++ (if presentFilters filters = [] then ""
              else " WHERE " ++ joinAnd (condsFrom 1 (presentFilters filters)))
          ++ " ORDER BY created_at DESC"
          ++ " LIMIT $" ++ toString ((presentFilters filters).length + 1)
          ++ " OFFSET $" ++ toString ((presentFilters filters).length + 2)),
         ((presentFilters filters).map (fun cv => GoVal.str cv.2))
           ++ [GoVal.int limit, GoVal.int offset]) := by
  rcases hd : filters "department" with _ | d <;>
    rcases hs : filters "status" with _ | s <;>
    rcases hp : filters "position" with _ | p <;>
    (try by_cases hde : d = "") <;> (try by_cases hse : s = "") <;>
    (try by_cases hpe : p = "") <;>
    simp_all [findAllQuery, findAllFilterBuild, presentFilters, condsFrom, joinAnd,
              String.append_assoc]

/-- C7: Count builds exactly the same condition list and argument list (in
the same parameter positions) as FindAll — the FindAll argument slice is the
Count argument slice with limit and offset appended — and the Count query is
the COUNT base plus the shared WHERE clause, with no ordering or pagination
clause. -/
theorem countQuery_same_predicate_as_findAll (filters : Filters) (limit offset : Int) :
    countFilterBuild filters = findAllFilterBuild filters
    ∧ (findAllQuery limit offset filters).2 =
        (countQuery filters).2 ++ [GoVal.int limit, GoVal.int offset]
    ∧ (countQuery filters).1 =
        "SELECT COUNT(*) FROM employee.employees"
          ++ (if (findAllFilterBuild filters).1 = [] then ""
              else " WHERE " ++ joinAnd (findAllFilterBuild filters).1) := by
  refine ⟨rfl, rfl, ?_⟩
  by_cases h : (findAllFilterBuild filters).1 = []
  · simp [countQuery, h, show countFilterBuild filters = findAllFilterBuild filters from rfl]
  · have hlen : 0 < (findAllFilterBuild filters).1.length := List.length_pos.mpr h
    simp only [countQuery, show countFilterBuild filters = findAllFilterBuild filters from rfl,
      hlen, if_pos, if_neg h, gt_iff_lt]
    rw [← String.append_assoc]
